import Mathlib

/-!
# Verification of the resumable, integrity-verified, retrying HTTP download engine

Shallow embedding of `downloader.py`'s `download_file` and proofs of the
specified properties.

Modelling conventions:
* Bytes are `Nat`; a file's content is a `List Nat`; a missing destination
  file is `none : Option (List Nat)`.
* The network environment per attempt is an `AttemptEnv`:
  `probe` is the outcome of the HEAD size probe (`none` = any exception in
  the probe block, `some n` = the parsed `content-length`, where a missing
  header parses to `0` via `int(headers.get('content-length', 0))`);
  `get` is the outcome of `requests.get` (`none` = the request raised,
  `some resp` = a response with status, optional declared content length
  and the chunk sequence produced by `iter_content`).
* `hashlib.new(hash_algo)` is modelled by `algoSupported` (the `ValueError`
  it raises on an unknown name is caught by the transient `except` clause)
  together with an abstract raw digest function `hashBytes`; `hexdigest()`
  is the lowercase hex rendering `hexOfBytes` of that raw digest.
* `dest.parent.mkdir(parents=True, exist_ok=True)` is modelled by the
  environment flag `mkdirFails`; when it fails the `OSError` propagates
  before the retry loop runs.
* The retry loop `for attempt in range(max_retries)` is modelled by the
  fuel-indexed `runLoop`; fuel `k` means `k` iterations remain, so the
  `attempt == max_retries - 1` test of the source corresponds to `k = 1`.
* Progress-callback invocations are recorded as a list of
  `(downloaded, total)` pairs; `chunk_size` and `timeout` do not affect
  the modelled behaviour (chunking is part of the environment's `get`).
-/

/-- A `requests.get` response: HTTP status, the optional `content-length`
header, and the byte chunks yielded by `iter_content`. -/
structure GetResp where
  status : Nat
  contentLength : Option Nat
  chunks : List (List Nat)
deriving DecidableEq

/-- The network environment of one attempt of the retry loop. -/
structure AttemptEnv where
  probe : Option Nat
  get : Option GetResp
deriving DecidableEq

/-- The immutable download request (the arguments of `download_file` that
affect the modelled behaviour). -/
structure Config where
  url : String
  expected_hash : Option String
  algoSupported : Bool
  hashBytes : List Nat → List Nat
  hasCallback : Bool
  max_retries : Int
  resume : Bool

/-- Lowercase hex character for a nibble, as produced by `hexdigest()`. -/
def hexChar (n : Nat) : Char :=
  if n < 10 then Char.ofNat (48 + n) else Char.ofNat (87 + n)

/-- The two lowercase hex characters of each byte, in order. -/
def hexChars : List Nat → List Char
  | [] => []
  | b :: rest => hexChar (b / 16 % 16) :: hexChar (b % 16) :: hexChars rest

/-- Lowercase hex string of a raw digest, as `hexdigest()` returns it. -/
def hexOfBytes (bs : List Nat) : String := String.mk (hexChars bs)

/-- `hexdigest()` of a file content under the configured algorithm. -/
def hexdigest (cfg : Config) (content : List Nat) : String :=
  hexOfBytes (cfg.hashBytes content)

/-- The transfer planner: the `mode`/`resume_pos` initialisation and the
`if resume and dest.exists() and attempt == 0` block of `download_file`.
Returns `(resume_pos, append?)` where `append? = true` models `mode = 'ab'`.
A probe outcome of `none` covers every exception swallowed by the inner
`try`: a failed HEAD, `raise_for_status`, `int` parsing, or `stat`. -/
def planTransfer (resume : Bool) (file : Option (List Nat)) (attempt : Nat)
    (probe : Option Nat) : Nat × Bool :=
  if resume ∧ file.isSome ∧ attempt = 0 then
    match probe with
    | some remote_size =>
      let local_size := (file.getD []).length
      if local_size < remote_size then (local_size, true) else (0, false)
    | none => (0, false)
  else (0, false)

/-- The `if resume_pos > 0 and response.status_code == 200` fallback:
the server ignored the range request, so discard the planned offset and
reopen in overwrite mode. -/
def effectivePlan (plan : Nat × Bool) (status : Nat) : Nat × Bool :=
  if 0 < plan.1 ∧ status = 200 then (0, false) else plan

/-- The streaming write loop over `iter_content` chunks: returns the bytes
written and the `(downloaded, total)` progress-callback invocations.
Empty chunks are skipped (`if chunk:`); the callback fires only when a
callback is configured and `total_size` is nonzero (Python truthiness of
`progress_callback and total_size`). -/
def writeChunks (hasCb : Bool) (total : Nat) :
    List (List Nat) → Nat → List Nat × List (Nat × Nat)
  | [], _ => ([], [])
  | c :: rest, downloaded =>
    if c = [] then writeChunks hasCb total rest downloaded
    else
      let d := downloaded + c.length
      let r := writeChunks hasCb total rest d
      (c ++ r.1, (if hasCb ∧ total ≠ 0 then [(d, total)] else []) ++ r.2)

/-- How one iteration of the retry loop's `try` body ends. -/
inductive AttemptRes where
  | ok
  | transient
  | mismatch
deriving DecidableEq

/-- State after one iteration of the `try` body: the destination file,
the progress events emitted, and how the body ended. -/
structure AttemptOut where
  file : Option (List Nat)
  events : List (Nat × Nat)
  res : AttemptRes
deriving DecidableEq

/-- The integrity verifier: the `if expected_hash:` block of
`download_file` run on the completed file `content`. No expected hash:
skip, attempt succeeds. Unsupported algorithm name: `hashlib.new` raises
`ValueError`, which the retry loop's `except` clause treats as transient.
Digest mismatch: `dest.unlink()` then `HashMismatchError`. -/
def verifyStep (cfg : Config) (content : List Nat)
    (events : List (Nat × Nat)) : AttemptOut :=
  match cfg.expected_hash with
  | none => ⟨some content, events, .ok⟩
  | some h =>
    if cfg.algoSupported then
      if hexdigest cfg content = h then ⟨some content, events, .ok⟩
      else ⟨none, events, .mismatch⟩
    else ⟨some content, events, .transient⟩

/-- One iteration of the `try` body of `download_file`: plan, GET with
`raise_for_status`, the 200-fallback, the write loop, then verification.
`transient` covers `requests.RequestException` (a failed GET or a status
`>= 400`); the file written is the append base (prior content in `'ab'`
mode, nothing in `'wb'` mode) followed by the streamed chunks. -/
def runAttempt (cfg : Config) (env : AttemptEnv) (attempt : Nat)
    (file : Option (List Nat)) : AttemptOut :=
  let plan := planTransfer cfg.resume file attempt env.probe
  match env.get with
  | none => ⟨file, [], .transient⟩
  | some resp =>
    if 400 ≤ resp.status then ⟨file, [], .transient⟩
    else
      let ep := effectivePlan plan resp.status
      let total_size := resp.contentLength.getD 0 + ep.1
      let base := if ep.2 then file.getD [] else []
      let w := writeChunks cfg.hasCallback total_size resp.chunks ep.1
      verifyStep cfg (base ++ w.1) w.2

/-- The final outcome of a `download_file` call. -/
inductive Outcome where
  | success
  | returnedFalse
  | mismatchError (msg : String)
  | downloadError (msg : String)
  | setupError
deriving DecidableEq

/-- The message of `HashMismatchError(f"Hash mismatch for {url}")`. -/
def mismatchMsg (cfg : Config) : String := "Hash mismatch for " ++ cfg.url

/-- The message of
`DownloadError(f"Failed to download {url} after {max_retries} attempts")`. -/
def exhaustedMsg (cfg : Config) : String :=
  "Failed to download " ++ cfg.url ++ " after " ++ toString cfg.max_retries
    ++ " attempts"

/-- Result of the retry loop: destination file, progress events, outcome,
and the number of loop iterations (attempts) performed. -/
structure LoopResult where
  file : Option (List Nat)
  events : List (Nat × Nat)
  outcome : Outcome
  attempts : Nat
deriving DecidableEq

/-- The retry loop `for attempt in range(max_retries)`, fuel-indexed:
fuel = iterations remaining, `attempt` = current index, `made` = attempts
already counted. On a transient failure the `except` clause deletes the
destination (`if dest.exists(): dest.unlink()`) and, on the last allowed
attempt (fuel 1, i.e. `attempt == max_retries - 1`), raises the exhausted
`DownloadError`; `HashMismatchError` is not caught and propagates. If the
loop ends without an iteration succeeding or raising, `False` is
returned. -/
def runLoop (cfg : Config) (envs : Nat → AttemptEnv) :
    Nat → Nat → Option (List Nat) → List (Nat × Nat) → Nat → LoopResult
  | 0, _, file, evs, made => ⟨file, evs, .returnedFalse, made⟩
  | k + 1, attempt, file, evs, made =>
    let a := runAttempt cfg (envs attempt) attempt file
    match a.res with
    | .ok => ⟨a.file, evs ++ a.events, .success, made + 1⟩
    | .mismatch => ⟨a.file, evs ++ a.events, .mismatchError (mismatchMsg cfg), made + 1⟩
    | .transient =>
      if k = 0 then
        ⟨none, evs ++ a.events, .downloadError (exhaustedMsg cfg), made + 1⟩
      else runLoop cfg envs k (attempt + 1) none (evs ++ a.events) (made + 1)

/-- The full environment of one `download_file` call. -/
structure Env where
  mkdirFails : Bool
  attempts : Nat → AttemptEnv

/-- Observable result of a `download_file` call: final destination file,
progress-callback invocations, outcome, attempts performed, and whether
the parent directories were created (`dirReady`). -/
structure DownloadResult where
  file : Option (List Nat)
  events : List (Nat × Nat)
  outcome : Outcome
  attempts : Nat
  dirReady : Bool
deriving DecidableEq

/-- `download_file`: create parent directories (an `OSError` there
propagates as a setup failure), then run the retry loop.
`range(max_retries)` performs `max_retries.toNat` iterations — none when
`max_retries <= 0`. -/
def download_file (cfg : Config) (file₀ : Option (List Nat)) (env : Env) :
    DownloadResult :=
  if env.mkdirFails then ⟨file₀, [], .setupError, 0, false⟩
  else
    let r := runLoop cfg env.attempts cfg.max_retries.toNat 0 file₀ [] 0
    ⟨r.file, r.events, r.outcome, r.attempts, true⟩

/-! ## Basic lemmas about the attempt body -/

/-- The verifier never changes the recorded progress events. -/
lemma verifyStep_events (cfg : Config) (c : List Nat) (e : List (Nat × Nat)) :
    (verifyStep cfg c e).events = e := by
  unfold verifyStep
  rcases cfg.expected_hash with _ | h
  · rfl
  · dsimp only
    split
    · split <;> rfl
    · rfl

/-- Verifier with no expected hash: skip, the attempt succeeds. -/
lemma verifyStep_none (cfg : Config) (c : List Nat) (e : List (Nat × Nat))
    (hh : cfg.expected_hash = none) :
    verifyStep cfg c e = ⟨some c, e, .ok⟩ := by
  simp [verifyStep, hh]

/-- Verifier on a matching digest: the attempt succeeds with the file. -/
lemma verifyStep_match (cfg : Config) (c : List Nat) (e : List (Nat × Nat))
    (h : String) (hh : cfg.expected_hash = some h)
    (halgo : cfg.algoSupported = true) (hdig : hexdigest cfg c = h) :
    verifyStep cfg c e = ⟨some c, e, .ok⟩ := by
  simp [verifyStep, hh, halgo, hdig]

/-- Verifier on a digest mismatch: `dest.unlink()` then
`HashMismatchError`. -/
lemma verifyStep_nomatch (cfg : Config) (c : List Nat) (e : List (Nat × Nat))
    (h : String) (hh : cfg.expected_hash = some h)
    (halgo : cfg.algoSupported = true) (hdig : hexdigest cfg c ≠ h) :
    verifyStep cfg c e = ⟨none, e, .mismatch⟩ := by
  simp [verifyStep, hh, halgo, hdig]

/-- With an expected hash but an unsupported algorithm name, the verifier
ends the attempt with the transient `ValueError`. -/
lemma verifyStep_badAlgo (cfg : Config) (c : List Nat) (e : List (Nat × Nat))
    (h : String) (hh : cfg.expected_hash = some h)
    (halgo : cfg.algoSupported = false) :
    verifyStep cfg c e = ⟨some c, e, .transient⟩ := by
  simp [verifyStep, hh, halgo]

/-- If the verifier lets the attempt succeed, the file on disk is the
completed content and, when an expected hash was supplied, its digest
equals that hash. -/
lemma verifyStep_ok (cfg : Config) (c : List Nat) (e : List (Nat × Nat))
    (hres : (verifyStep cfg c e).res = .ok) :
    (verifyStep cfg c e).file = some c ∧
      ∀ h, cfg.expected_hash = some h → hexdigest cfg c = h := by
  rcases hh : cfg.expected_hash with _ | h0
  · rw [verifyStep_none cfg c e hh]
    exact ⟨rfl, by simp [hh]⟩
  · by_cases halgo : cfg.algoSupported = true
    · by_cases hdig : hexdigest cfg c = h0
      · rw [verifyStep_match cfg c e h0 hh halgo hdig]
        refine ⟨rfl, ?_⟩
        intro h hsome
        cases hsome
        exact hdig
      · rw [verifyStep_nomatch cfg c e h0 hh halgo hdig] at hres
        cases hres
    · rw [verifyStep_badAlgo cfg c e h0 hh (by simpa using halgo)] at hres
      cases hres

/-- On a digest mismatch the verifier deletes the destination file. -/
lemma verifyStep_mismatch (cfg : Config) (c : List Nat) (e : List (Nat × Nat))
    (hres : (verifyStep cfg c e).res = .mismatch) :
    (verifyStep cfg c e).file = none := by
  rcases hh : cfg.expected_hash with _ | h0
  · rw [verifyStep_none cfg c e hh] at hres
    cases hres
  · by_cases halgo : cfg.algoSupported = true
    · by_cases hdig : hexdigest cfg c = h0
      · rw [verifyStep_match cfg c e h0 hh halgo hdig] at hres
        cases hres
      · rw [verifyStep_nomatch cfg c e h0 hh halgo hdig]
    · rw [verifyStep_badAlgo cfg c e h0 hh (by simpa using halgo)] at hres
      cases hres

/-- The bytes written by the stream loop are exactly the concatenation of
the non-empty chunks, i.e. the whole response body. -/
lemma writeChunks_fst (hb : Bool) (t : Nat) :
    ∀ (cs : List (List Nat)) (d : Nat), (writeChunks hb t cs d).1 = cs.flatten := by
  intro cs
  induction cs with
  | nil => intro d; rfl
  | cons c rest ih =>
    intro d
    unfold writeChunks
    by_cases hc : c = []
    · rw [if_pos hc, hc, ih]
      simp
    · rw [if_neg hc]
      simp [ih]

/-- Every progress-callback invocation reports the attempt's `total_size`,
and invocations only happen when that total is nonzero. -/
lemma writeChunks_snd_total (hb : Bool) (t : Nat) :
    ∀ (cs : List (List Nat)) (d : Nat) (e : Nat × Nat),
      e ∈ (writeChunks hb t cs d).2 → e.2 = t ∧ t ≠ 0 := by
  intro cs
  induction cs with
  | nil => intro d e he; cases he
  | cons c rest ih =>
    intro d e he
    unfold writeChunks at he
    by_cases hc : c = []
    · rw [if_pos hc] at he
      exact ih _ _ he
    · rw [if_neg hc] at he
      simp only [List.mem_append] at he
      rcases he with he | he
      · by_cases hcb : hb = true ∧ t ≠ 0
        · rw [if_pos hcb] at he
          simp only [List.mem_singleton] at he
          exact ⟨by rw [he], hcb.2⟩
        · rw [if_neg hcb] at he
          cases he
      · exact ih _ _ he

/-- When the computed total is zero, the progress callback is never
invoked (Python truthiness of `progress_callback and total_size`). -/
lemma writeChunks_snd_zero (hb : Bool) (cs : List (List Nat)) (d : Nat) :
    (writeChunks hb 0 cs d).2 = [] := by
  rw [List.eq_nil_iff_forall_not_mem]
  intro e he
  exact (writeChunks_snd_total hb 0 cs d e he).2 rfl

/-- A failed `requests.get` is a transient failure: nothing is written,
no progress is reported. -/
lemma runAttempt_get_none (cfg : Config) (env : AttemptEnv) (a : Nat)
    (f : Option (List Nat)) (hget : env.get = none) :
    runAttempt cfg env a f = ⟨f, [], .transient⟩ := by
  unfold runAttempt
  rw [hget]

/-- `raise_for_status` on a status `>= 400` is a transient failure:
nothing is written, no progress is reported. -/
lemma runAttempt_status_ge (cfg : Config) (env : AttemptEnv) (a : Nat)
    (f : Option (List Nat)) (resp : GetResp) (hget : env.get = some resp)
    (hs : 400 ≤ resp.status) :
    runAttempt cfg env a f = ⟨f, [], .transient⟩ := by
  unfold runAttempt
  rw [hget]
  dsimp only
  rw [if_pos hs]

/-- On a delivered response with a success status, the attempt writes the
append base followed by the streamed body and runs the verifier. -/
lemma runAttempt_eq_verify (cfg : Config) (env : AttemptEnv) (a : Nat)
    (f : Option (List Nat)) (resp : GetResp) (hget : env.get = some resp)
    (hs : ¬ 400 ≤ resp.status) :
    runAttempt cfg env a f =
      (let ep := effectivePlan (planTransfer cfg.resume f a env.probe) resp.status
       let w := writeChunks cfg.hasCallback
         (resp.contentLength.getD 0 + ep.1) resp.chunks ep.1
       verifyStep cfg ((if ep.2 then f.getD [] else []) ++ w.1) w.2) := by
  unfold runAttempt
  rw [hget]
  dsimp only
  rw [if_neg hs]

/-- An environment on which one attempt fails transiently at the network
level: the GET itself raises, or the response status triggers
`raise_for_status`. -/
def transientEnv (e : AttemptEnv) : Prop :=
  e.get = none ∨ ∃ r, e.get = some r ∧ 400 ≤ r.status

/-- On a network-level transient environment every attempt fails
transiently, leaving the file untouched and reporting no progress. -/
lemma runAttempt_transientEnv (cfg : Config) (env : AttemptEnv) (a : Nat)
    (f : Option (List Nat)) (h : transientEnv env) :
    runAttempt cfg env a f = ⟨f, [], .transient⟩ := by
  rcases h with hget | ⟨r, hget, hs⟩
  · exact runAttempt_get_none cfg env a f hget
  · exact runAttempt_status_ge cfg env a f r hget hs

/-- A successful attempt leaves the completed content on disk and, when an
expected hash was supplied, that content's digest equals it. -/
lemma runAttempt_ok_file_hash (cfg : Config) (env : AttemptEnv) (a : Nat)
    (f : Option (List Nat)) (hres : (runAttempt cfg env a f).res = .ok) :
    ∃ c, (runAttempt cfg env a f).file = some c ∧
      ∀ h, cfg.expected_hash = some h → hexdigest cfg c = h := by
  cases hget : env.get with
  | none =>
    rw [runAttempt_get_none cfg env a f hget] at hres
    cases hres
  | some resp =>
    by_cases hs : 400 ≤ resp.status
    · rw [runAttempt_status_ge cfg env a f resp hget hs] at hres
      cases hres
    · rw [runAttempt_eq_verify cfg env a f resp hget hs] at hres ⊢
      exact ⟨_, (verifyStep_ok cfg _ _ hres).1, (verifyStep_ok cfg _ _ hres).2⟩

/-- A hash-mismatch attempt deletes the destination file. -/
lemma runAttempt_mismatch_file (cfg : Config) (env : AttemptEnv) (a : Nat)
    (f : Option (List Nat)) (hres : (runAttempt cfg env a f).res = .mismatch) :
    (runAttempt cfg env a f).file = none := by
  cases hget : env.get with
  | none =>
    rw [runAttempt_get_none cfg env a f hget] at hres
    cases hres
  | some resp =>
    by_cases hs : 400 ≤ resp.status
    · rw [runAttempt_status_ge cfg env a f resp hget hs] at hres
      cases hres
    · rw [runAttempt_eq_verify cfg env a f resp hget hs] at hres ⊢
      exact verifyStep_mismatch cfg _ _ hres

/-- With an expected hash and an unsupported algorithm name, any attempt
that receives a success-status response still ends transiently: the
`ValueError` from `hashlib.new` is caught by the retry clause. -/
lemma runAttempt_badAlgo (cfg : Config) (env : AttemptEnv) (a : Nat)
    (f : Option (List Nat)) (resp : GetResp) (h : String)
    (hh : cfg.expected_hash = some h) (halgo : cfg.algoSupported = false)
    (hget : env.get = some resp) (hs : resp.status < 400) :
    (runAttempt cfg env a f).res = .transient := by
  rw [runAttempt_eq_verify cfg env a f resp hget (by omega)]
  dsimp only
  rw [verifyStep_badAlgo cfg _ _ h hh halgo]

/-! ## Lemmas about the retry loop -/

/-- Loop with no iterations left: `download_file` falls through to
`return False`. -/
lemma runLoop_zero (cfg : Config) (envs : Nat → AttemptEnv) (a : Nat)
    (f : Option (List Nat)) (evs : List (Nat × Nat)) (m : Nat) :
    runLoop cfg envs 0 a f evs m = ⟨f, evs, .returnedFalse, m⟩ := rfl

/-- One unfolding of the retry loop. -/
lemma runLoop_succ (cfg : Config) (envs : Nat → AttemptEnv) (k a : Nat)
    (f : Option (List Nat)) (evs : List (Nat × Nat)) (m : Nat) :
    runLoop cfg envs (k + 1) a f evs m =
      (let o := runAttempt cfg (envs a) a f
       match o.res with
       | .ok => ⟨o.file, evs ++ o.events, .success, m + 1⟩
       | .mismatch =>
         ⟨o.file, evs ++ o.events, .mismatchError (mismatchMsg cfg), m + 1⟩
       | .transient =>
         if k = 0 then
           ⟨none, evs ++ o.events, .downloadError (exhaustedMsg cfg), m + 1⟩
         else runLoop cfg envs k (a + 1) none (evs ++ o.events) (m + 1)) := rfl

/-- If the loop ends in success and an expected hash was supplied, the
final file's digest equals that hash. -/
lemma runLoop_success_hash (cfg : Config) (envs : Nat → AttemptEnv)
    (hstr : String) (hh : cfg.expected_hash = some hstr) :
    ∀ (k a : Nat) (f : Option (List Nat)) (evs : List (Nat × Nat)) (m : Nat),
      (runLoop cfg envs k a f evs m).outcome = .success →
      ∃ c, (runLoop cfg envs k a f evs m).file = some c ∧
        hexdigest cfg c = hstr := by
  intro k
  induction k with
  | zero =>
    intro a f evs m hr
    rw [runLoop_zero] at hr
    cases hr
  | succ k ih =>
    intro a f evs m hr
    rw [runLoop_succ] at hr ⊢
    dsimp only at hr ⊢
    cases hres : (runAttempt cfg (envs a) a f).res with
    | ok =>
      rw [hres] at hr
      dsimp only at hr ⊢
      obtain ⟨c, hc, hdig⟩ := runAttempt_ok_file_hash cfg (envs a) a f hres
      exact ⟨c, hc, hdig hstr hh⟩
    | mismatch =>
      rw [hres] at hr
      dsimp only at hr
      cases hr
    | transient =>
      rw [hres] at hr
      dsimp only at hr ⊢
      by_cases hk : k = 0
      · rw [if_pos hk] at hr
        cases hr
      · rw [if_neg hk] at hr ⊢
        exact ih _ _ _ _ hr

/-- Whether an `Outcome` is one of the raised errors: integrity failure,
retries exhausted, or setup failure. -/
def isError : Outcome → Bool
  | .mismatchError _ => true
  | .downloadError _ => true
  | .setupError => true
  | .success => false
  | .returnedFalse => false

/-- If the loop raises (integrity failure or retries exhausted), the
destination file is gone. -/
lemma runLoop_error_file (cfg : Config) (envs : Nat → AttemptEnv) :
    ∀ (k a : Nat) (f : Option (List Nat)) (evs : List (Nat × Nat)) (m : Nat),
      isError (runLoop cfg envs k a f evs m).outcome = true →
      (runLoop cfg envs k a f evs m).file = none := by
  intro k
  induction k with
  | zero =>
    intro a f evs m hr
    rw [runLoop_zero] at hr
    cases hr
  | succ k ih =>
    intro a f evs m hr
    rw [runLoop_succ] at hr ⊢
    dsimp only at hr ⊢
    cases hres : (runAttempt cfg (envs a) a f).res with
    | ok =>
      rw [hres] at hr
      dsimp only [isError] at hr
      cases hr
    | mismatch =>
      rw [hres] at hr
      dsimp only at hr ⊢
      exact runAttempt_mismatch_file cfg (envs a) a f hres
    | transient =>
      rw [hres] at hr
      dsimp only at hr ⊢
      by_cases hk : k = 0
      · rw [if_pos hk]
      · rw [if_neg hk] at hr ⊢
        exact ih _ _ _ _ hr

/-- If the first remaining attempt fails transiently and so does every
later one (on the then-deleted file), the loop deletes the file and
raises the exhausted `DownloadError` after consuming the whole budget. -/
lemma runLoop_exhaust (cfg : Config) (envs : Nat → AttemptEnv) :
    ∀ (k a : Nat) (f : Option (List Nat)) (evs : List (Nat × Nat)) (m : Nat),
      (runAttempt cfg (envs a) a f).res = .transient →
      (∀ i, i < k →
        (runAttempt cfg (envs (a + i + 1)) (a + i + 1) none).res = .transient) →
      ∃ evs', runLoop cfg envs (k + 1) a f evs m =
        ⟨none, evs', .downloadError (exhaustedMsg cfg), m + (k + 1)⟩ := by
  intro k
  induction k with
  | zero =>
    intro a f evs m h0 _
    refine ⟨evs ++ (runAttempt cfg (envs a) a f).events, ?_⟩
    rw [runLoop_succ]
    dsimp only
    rw [h0]
    rfl
  | succ k ih =>
    intro a f evs m h0 hrest
    rw [runLoop_succ]
    dsimp only
    rw [h0]
    dsimp only
    rw [if_neg (Nat.succ_ne_zero k)]
    have h0' : (runAttempt cfg (envs (a + 1)) (a + 1) none).res = .transient := by
      have h := hrest 0 (Nat.succ_pos k)
      simpa using h
    have hrest' : ∀ i, i < k →
        (runAttempt cfg (envs (a + 1 + i + 1)) (a + 1 + i + 1) none).res
          = .transient := by
      intro i hi
      have h := hrest (i + 1) (by omega)
      have heq : a + (i + 1) + 1 = a + 1 + i + 1 := by omega
      rw [heq] at h
      exact h
    obtain ⟨evs', heq⟩ :=
      ih (a + 1) none (evs ++ (runAttempt cfg (envs a) a f).events) (m + 1)
        h0' hrest'
    refine ⟨evs', heq.trans ?_⟩
    congr 1
    omega

/-! ## The canonical lowercase hex form of `hexdigest()` -/

/-- A hex nibble character is a decimal digit or a lowercase `a`–`f`. -/
lemma hexChar_range (n : Nat) (hn : n < 16) :
    (48 ≤ (hexChar n).toNat ∧ (hexChar n).toNat ≤ 57) ∨
      (97 ≤ (hexChar n).toNat ∧ (hexChar n).toNat ≤ 102) := by
  interval_cases n <;> decide

/-- Every character of a hex digest is a decimal digit or a lowercase
`a`–`f`; in particular `hexdigest()` never contains an uppercase letter. -/
lemma hexChars_range :
    ∀ (bs : List Nat), ∀ c ∈ hexChars bs,
      (48 ≤ c.toNat ∧ c.toNat ≤ 57) ∨ (97 ≤ c.toNat ∧ c.toNat ≤ 102) := by
  intro bs
  induction bs with
  | nil => intro c hc; cases hc
  | cons b rest ih =>
    intro c hc
    simp only [hexChars, List.mem_cons] at hc
    rcases hc with rfl | rfl | hc
    · exact hexChar_range _ (Nat.mod_lt _ (by decide))
    · exact hexChar_range _ (Nat.mod_lt _ (by decide))
    · exact ih c hc

/-! ## The two outcomes of the setup step -/

/-- When creating the parent directories fails, the `OSError` propagates
before any attempt runs. -/
lemma download_file_setup (cfg : Config) (f₀ : Option (List Nat)) (env : Env)
    (hmk : env.mkdirFails = true) :
    download_file cfg f₀ env = ⟨f₀, [], .setupError, 0, false⟩ := by
  simp [download_file, hmk]

/-- When the parent directories are created, the retry loop runs with the
full budget `max_retries.toNat`. -/
lemma download_file_run (cfg : Config) (f₀ : Option (List Nat)) (env : Env)
    (hmk : env.mkdirFails = false) :
    download_file cfg f₀ env =
      (let r := runLoop cfg env.attempts cfg.max_retries.toNat 0 f₀ [] 0
       ⟨r.file, r.events, r.outcome, r.attempts, true⟩) := by
  simp [download_file, hmk]

/-! ## Claim theorems -/

/-- C1: every call to `download_file` that returns successfully (returns
`True`) with an expected hash supplied leaves a destination file whose
digest under the named hash algorithm equals the expected hash. -/
theorem C1_success_digest_matches (cfg : Config) (f₀ : Option (List Nat))
    (env : Env) (h : String) (hh : cfg.expected_hash = some h)
    (hs : (download_file cfg f₀ env).outcome = .success) :
    ∃ c, (download_file cfg f₀ env).file = some c ∧ hexdigest cfg c = h := by
  cases hmk : env.mkdirFails with
  | true =>
    rw [download_file_setup cfg f₀ env hmk] at hs
    cases hs
  | false =>
    rw [download_file_run cfg f₀ env hmk] at hs ⊢
    dsimp only at hs ⊢
    exact runLoop_success_hash cfg env.attempts h hh _ 0 f₀ [] 0 hs

/-- Concrete instance of C1: a one-attempt download of the byte `0xab`
with expected hash `"ab"` under the identity digest succeeds, and the
final file's digest is the expected hash. -/
theorem C1_witness :
    ∃ c, (download_file ⟨"http://e/a", some "ab", true, fun c => c, false, 1, false⟩
        none ⟨false, fun _ => ⟨none, some ⟨200, some 1, [[171]]⟩⟩⟩).file = some c ∧
      hexdigest ⟨"http://e/a", some "ab", true, fun c => c, false, 1, false⟩ c = "ab" :=
  C1_success_digest_matches
    ⟨"http://e/a", some "ab", true, fun c => c, false, 1, false⟩
    none ⟨false, fun _ => ⟨none, some ⟨200, some 1, [[171]]⟩⟩⟩ "ab" rfl rfl

/-- C2: every call to `download_file` that raises (hash mismatch, retries
exhausted, or setup failure) leaves no destination file. The setup case
relies on the filesystem fact that a destination under parents that
`mkdir` must still create cannot itself exist. -/
theorem C2_no_file_after_error (cfg : Config) (f₀ : Option (List Nat))
    (env : Env) (hsetup : env.mkdirFails = true → f₀ = none)
    (he : isError (download_file cfg f₀ env).outcome = true) :
    (download_file cfg f₀ env).file = none := by
  cases hmk : env.mkdirFails with
  | true =>
    rw [download_file_setup cfg f₀ env hmk]
    exact hsetup hmk
  | false =>
    rw [download_file_run cfg f₀ env hmk] at he ⊢
    dsimp only at he ⊢
    exact runLoop_error_file cfg env.attempts _ 0 f₀ [] 0 he

/-- Concrete instance of C2: a one-attempt call whose GET raises ends in
the exhausted error with no destination file. -/
theorem C2_witness :
    (download_file ⟨"http://e/b", none, true, fun c => c, false, 1, true⟩
      (some [7]) ⟨false, fun _ => ⟨none, none⟩⟩).file = none :=
  C2_no_file_after_error
    ⟨"http://e/b", none, true, fun c => c, false, 1, true⟩
    (some [7]) ⟨false, fun _ => ⟨none, none⟩⟩
    (fun h => by cases h) rfl

/-- C3: on any attempt whose computed digest mismatches the expected hash,
the loop deletes the destination file and raises the integrity error at
once: the result counts exactly this attempt, independent of how much
retry budget `k` remains, so no re-download happens. -/
theorem C3_mismatch_fatal_immediately (cfg : Config)
    (envs : Nat → AttemptEnv) (k a : Nat) (f : Option (List Nat))
    (evs : List (Nat × Nat)) (m : Nat)
    (h : (runAttempt cfg (envs a) a f).res = .mismatch) :
    runLoop cfg envs (k + 1) a f evs m =
      ⟨none, evs ++ (runAttempt cfg (envs a) a f).events,
        .mismatchError (mismatchMsg cfg), m + 1⟩ := by
  rw [runLoop_succ]
  dsimp only
  rw [h]
  dsimp only
  rw [runAttempt_mismatch_file cfg (envs a) a f h]

/-- Concrete instance of C3: with 9 attempts of budget left, a download
whose content hashes to `"ab"` against expected `"ff"` stops after this
one attempt with the integrity error and no file. -/
theorem C3_witness :
    runLoop ⟨"http://e/c", some "ff", true, fun c => c, false, 10, false⟩
        (fun _ => ⟨none, some ⟨200, some 1, [[171]]⟩⟩) 9 0 none [] 0 =
      ⟨none, [], .mismatchError
        (mismatchMsg ⟨"http://e/c", some "ff", true, fun c => c, false, 10, false⟩), 1⟩ :=
  C3_mismatch_fatal_immediately
    ⟨"http://e/c", some "ff", true, fun c => c, false, 10, false⟩
    (fun _ => ⟨none, some ⟨200, some 1, [[171]]⟩⟩) 8 0 none [] 0 rfl

/-- C4: with `max_retries = N >= 1` and a server failing transiently on
every attempt, the call performs exactly `N` attempts and raises the
terminal error naming the URL and `N`, leaving no file. -/
theorem C4_retry_exhaustion (cfg : Config) (f₀ : Option (List Nat))
    (env : Env) (N : Nat) (hmk : env.mkdirFails = false)
    (hN : cfg.max_retries = (N : Int)) (hN1 : 1 ≤ N)
    (htr : ∀ i, i < N → transientEnv (env.attempts i)) :
    (download_file cfg f₀ env).outcome =
        .downloadError ("Failed to download " ++ cfg.url ++ " after "
          ++ toString (N : Int) ++ " attempts")
      ∧ (download_file cfg f₀ env).attempts = N
      ∧ (download_file cfg f₀ env).file = none := by
  rw [download_file_run cfg f₀ env hmk]
  dsimp only
  have htoNat : cfg.max_retries.toNat = N := by
    rw [hN]
    omega
  rw [htoNat]
  obtain ⟨k, rfl⟩ : ∃ k, N = k + 1 := ⟨N - 1, by omega⟩
  have h0 : (runAttempt cfg (env.attempts 0) 0 f₀).res = .transient := by
    rw [runAttempt_transientEnv cfg (env.attempts 0) 0 f₀ (htr 0 (by omega))]
  have hrest : ∀ i, i < k →
      (runAttempt cfg (env.attempts (0 + i + 1)) (0 + i + 1) none).res
        = .transient := by
    intro i hi
    rw [runAttempt_transientEnv cfg _ _ none (htr (0 + i + 1) (by omega))]
  obtain ⟨evs', heq⟩ := runLoop_exhaust cfg env.attempts k 0 f₀ [] 0 h0 hrest
  rw [heq]
  refine ⟨?_, ?_, rfl⟩
  · dsimp only
    rw [exhaustedMsg, hN]
  · dsimp only
    omega

/-- Concrete instance of C4: two attempts against a server whose GET
always raises end in the exhausted error naming 2 attempts. -/
theorem C4_witness :
    (download_file ⟨"http://e/d", none, true, fun c => c, false, 2, false⟩
        none ⟨false, fun _ => ⟨none, none⟩⟩).outcome =
        .downloadError ("Failed to download "
          ++ (⟨"http://e/d", none, true, fun c => c, false, 2, false⟩ : Config).url
          ++ " after " ++ toString ((2 : Nat) : Int) ++ " attempts")
      ∧ (download_file ⟨"http://e/d", none, true, fun c => c, false, 2, false⟩
          none ⟨false, fun _ => ⟨none, none⟩⟩).attempts = 2
      ∧ (download_file ⟨"http://e/d", none, true, fun c => c, false, 2, false⟩
          none ⟨false, fun _ => ⟨none, none⟩⟩).file = none :=
  C4_retry_exhaustion ⟨"http://e/d", none, true, fun c => c, false, 2, false⟩
    none ⟨false, fun _ => ⟨none, none⟩⟩ 2 rfl rfl (by omega)
    (fun i _ => Or.inl rfl)

/-- The planner expressed as one decision: resume exactly under the
claimed conjunction, at offset = local size in append mode, otherwise
fresh at offset 0 in overwrite mode. -/
lemma planTransfer_char (r : Bool) (f : Option (List Nat)) (a : Nat)
    (p : Option Nat) :
    planTransfer r f a p =
      if r = true ∧ f.isSome = true ∧ a = 0 ∧
          (∃ n, p = some n ∧ (f.getD []).length < n)
      then ((f.getD []).length, true) else (0, false) := by
  unfold planTransfer
  by_cases hc : r = true ∧ f.isSome = true ∧ a = 0
  · obtain ⟨hr, hsome, ha⟩ := hc
    rw [if_pos ⟨hr, hsome, ha⟩]
    cases p with
    | none =>
      rw [if_neg]
      rintro ⟨_, _, _, n, hn, _⟩
      cases hn
    | some n =>
      dsimp only
      by_cases hl : (f.getD []).length < n
      · rw [if_pos hl, if_pos ⟨hr, hsome, ha, n, rfl, hl⟩]
      · rw [if_neg hl, if_neg]
        rintro ⟨_, _, _, m, hm, hlm⟩
        cases hm
        exact hl hlm
  · rw [if_neg hc, if_neg]
    rintro ⟨hr, hsome, ha, _⟩
    exact hc ⟨hr, hsome, ha⟩

/-- C5: the transfer planner resumes iff resume is enabled, the
destination exists, it is the first attempt, the size probe succeeded
with some remote size, and the local size is strictly below it; a resume
plan is (local size, append mode) and every other plan is (0, overwrite
mode). -/
theorem C5_planner_decision (r : Bool) (f : Option (List Nat)) (a : Nat)
    (p : Option Nat) :
    ((planTransfer r f a p).2 = true ↔
      (r = true ∧ f.isSome = true ∧ a = 0 ∧
        ∃ n, p = some n ∧ (f.getD []).length < n))
    ∧ ((planTransfer r f a p).2 = true →
        (planTransfer r f a p).1 = (f.getD []).length)
    ∧ ((planTransfer r f a p).2 = false → planTransfer r f a p = (0, false)) := by
  by_cases hcond : r = true ∧ f.isSome = true ∧ a = 0 ∧
      (∃ n, p = some n ∧ (f.getD []).length < n)
  · rw [planTransfer_char r f a p, if_pos hcond]
    refine ⟨⟨fun _ => hcond, fun _ => rfl⟩, fun _ => rfl, fun hfalse => ?_⟩
    cases hfalse
  · rw [planTransfer_char r f a p, if_neg hcond]
    refine ⟨⟨fun hfalse => ?_, fun h => absurd h hcond⟩, fun hfalse => ?_,
      fun _ => rfl⟩
    · cases hfalse
    · cases hfalse

/-- Concrete instance of C5: a 1-byte local file, first attempt, probe
size 3: the planner resumes in append mode. -/
theorem C5_witness : (planTransfer true (some [9]) 0 (some 3)).2 = true :=
  (C5_planner_decision true (some [9]) 0 (some 3)).1.mpr
    ⟨rfl, rfl, rfl, 3, rfl, by decide⟩

/-- C6: when a resume at offset K > 0 was planned but the server answers
with full-content status 200, the attempt discards the offset, switches
to overwrite mode, succeeds (no error), and the final file is exactly the
full body the server returned — not the prior prefix plus that body. -/
theorem C6_server_ignores_range (cfg : Config) (env : AttemptEnv) (a : Nat)
    (f : Option (List Nat)) (resp : GetResp) (hget : env.get = some resp)
    (h200 : resp.status = 200)
    (hK : 0 < (planTransfer cfg.resume f a env.probe).1)
    (hnh : cfg.expected_hash = none) :
    effectivePlan (planTransfer cfg.resume f a env.probe) resp.status = (0, false)
    ∧ (runAttempt cfg env a f).file = some resp.chunks.flatten
    ∧ (runAttempt cfg env a f).res = .ok := by
  have hep : effectivePlan (planTransfer cfg.resume f a env.probe) resp.status
      = (0, false) := by
    unfold effectivePlan
    rw [if_pos ⟨hK, h200⟩]
  have hs : ¬ 400 ≤ resp.status := by omega
  rw [runAttempt_eq_verify cfg env a f resp hget hs]
  dsimp only
  rw [hep]
  dsimp only
  rw [verifyStep_none cfg _ _ hnh]
  dsimp only
  rw [writeChunks_fst]
  exact ⟨rfl, by simp, rfl⟩

/-- Concrete instance of C6: local 2-byte prefix, probe size 5, planned
resume at 2, but the server replies 200 with the 5-byte full body: the
final file is the full body alone. -/
theorem C6_witness :
    effectivePlan
        (planTransfer true (some [9, 9]) 0 (some 5)) (200 : Nat) = (0, false)
    ∧ (runAttempt ⟨"http://e/f", none, true, fun c => c, false, 3, true⟩
        ⟨some 5, some ⟨200, some 5, [[1, 2, 3, 4, 5]]⟩⟩ 0 (some [9, 9])).file
        = some ([[1, 2, 3, 4, 5]] : List (List Nat)).flatten
    ∧ (runAttempt ⟨"http://e/f", none, true, fun c => c, false, 3, true⟩
        ⟨some 5, some ⟨200, some 5, [[1, 2, 3, 4, 5]]⟩⟩ 0 (some [9, 9])).res
        = .ok :=
  C6_server_ignores_range ⟨"http://e/f", none, true, fun c => c, false, 3, true⟩
    ⟨some 5, some ⟨200, some 5, [[1, 2, 3, 4, 5]]⟩⟩ 0 (some [9, 9])
    ⟨200, some 5, [[1, 2, 3, 4, 5]]⟩ rfl rfl (by decide) rfl

/-- Counterexample to C7 as stated: a resumed attempt (offset 3) whose
206 response declares no content length still invokes the progress
callback — the recorded invocation is `(5, 3)`, with total 3 being just
the resume offset, because `total_size = int(headers.get(...)) + resume_pos`
is nonzero. -/
theorem C7_counterexample :
    (⟨206, none, [[1, 2]]⟩ : GetResp).contentLength = none
    ∧ ((⟨false, fun _ => ⟨some 10, some ⟨206, none, [[1, 2]]⟩⟩⟩ : Env).attempts 0).get
        = some ⟨206, none, [[1, 2]]⟩
    ∧ (download_file ⟨"http://e/g", none, true, fun c => c, true, 3, true⟩
        (some [0, 0, 0])
        ⟨false, fun _ => ⟨some 10, some ⟨206, none, [[1, 2]]⟩⟩⟩).events
        = [(5, 3)] :=
  ⟨rfl, rfl, rfl⟩

/-- C7 (amended): during an attempt with a delivered success-status
response, the progress callback is not invoked when the computed total —
declared content length (0 when undeclared) plus the effective resume
offset — is zero; and every invocation reports exactly that (nonzero)
total. In particular a fresh attempt with no declared length reports no
progress, but a resumed attempt with no declared length does report,
with total = the resume offset. -/
theorem C7_progress_totals (cfg : Config) (env : AttemptEnv) (a : Nat)
    (f : Option (List Nat)) (resp : GetResp) (hget : env.get = some resp)
    (hok : resp.status < 400) :
    ((resp.contentLength.getD 0 +
        (effectivePlan (planTransfer cfg.resume f a env.probe) resp.status).1
        = 0) → (runAttempt cfg env a f).events = [])
    ∧ ∀ e ∈ (runAttempt cfg env a f).events,
        e.2 = resp.contentLength.getD 0 +
          (effectivePlan (planTransfer cfg.resume f a env.probe) resp.status).1
        ∧ e.2 ≠ 0 := by
  rw [runAttempt_eq_verify cfg env a f resp hget (by omega)]
  dsimp only
  rw [verifyStep_events]
  constructor
  · intro h0
    rw [h0]
    exact writeChunks_snd_zero cfg.hasCallback resp.chunks _
  · intro e he
    obtain ⟨h1, h2⟩ := writeChunks_snd_total cfg.hasCallback _ resp.chunks _ e he
    refine ⟨h1, ?_⟩
    rw [h1]
    exact h2

/-- Concrete instance of the amended C7: a fresh attempt whose response
declares no content length reports no progress at all. -/
theorem C7_witness :
    (runAttempt ⟨"http://e/h", none, true, fun c => c, true, 3, false⟩
      ⟨none, some ⟨200, none, [[1, 2]]⟩⟩ 0 none).events = [] :=
  (C7_progress_totals ⟨"http://e/h", none, true, fun c => c, true, 3, false⟩
    ⟨none, some ⟨200, none, [[1, 2]]⟩⟩ 0 none ⟨200, none, [[1, 2]]⟩
    rfl (by decide)).1 rfl

/-- Counterexample to C8 as stated: the destination content `0xab`
digests (identity raw digest) to the lowercase hex `"ab"`; the expected
hash `"AB"` differs from it only in letter case, yet the call raises the
integrity error and deletes the file instead of verifying — the
comparison `hexdigest() != expected_hash` is case-sensitive. -/
theorem C8_counterexample :
    hexdigest ⟨"http://e/i", some "AB", true, fun c => c, false, 1, false⟩ [171]
        = "ab"
    ∧ "AB".data.map Char.toLower = "ab".data
    ∧ "AB" ≠ "ab"
    ∧ (download_file ⟨"http://e/i", some "AB", true, fun c => c, false, 1, false⟩
        none ⟨false, fun _ => ⟨none, some ⟨200, some 1, [[171]]⟩⟩⟩).outcome
        = .mismatchError "Hash mismatch for http://e/i"
    ∧ (download_file ⟨"http://e/i", some "AB", true, fun c => c, false, 1, false⟩
        none ⟨false, fun _ => ⟨none, some ⟨200, some 1, [[171]]⟩⟩⟩).file
        = none :=
  ⟨rfl, by decide, by decide, rfl, rfl⟩

/-- C8 (amended): the digest comparison is exact, case-sensitive string
equality against the canonical lowercase hex form `hexdigest()` returns;
consequently an expected hash containing any uppercase letter can never
verify — no attempt with such an expected hash succeeds. -/
theorem C8_case_sensitive_compare (cfg : Config) (env : AttemptEnv) (a : Nat)
    (f : Option (List Nat)) (h : String) (hh : cfg.expected_hash = some h)
    (hup : ∃ c ∈ h.data, 65 ≤ c.toNat ∧ c.toNat ≤ 90) :
    (runAttempt cfg env a f).res ≠ .ok := by
  intro hres
  obtain ⟨c, _, hdig⟩ := runAttempt_ok_file_hash cfg env a f hres
  have hd : hexdigest cfg c = h := hdig h hh
  obtain ⟨ch, hmem, hlo, hhi⟩ := hup
  rw [← hd] at hmem
  have hmem' : ch ∈ hexChars (cfg.hashBytes c) := hmem
  have hrange := hexChars_range (cfg.hashBytes c) ch hmem'
  omega

/-- Concrete instance of the amended C8: with expected hash `"AB"`
(an uppercase form), the attempt can never end successfully. -/
theorem C8_witness :
    (runAttempt ⟨"http://e/j", some "AB", true, fun c => c, false, 1, false⟩
      ⟨none, some ⟨200, some 1, [[171]]⟩⟩ 0 none).res ≠ .ok :=
  C8_case_sensitive_compare
    ⟨"http://e/j", some "AB", true, fun c => c, false, 1, false⟩
    ⟨none, some ⟨200, some 1, [[171]]⟩⟩ 0 none "AB" rfl
    ⟨'A', by decide, by decide⟩

/-- C9: a call with `max_retries <= 0` performs no attempt at all —
`range(max_retries)` is empty — so it returns `False` with the
destination file untouched, no progress reported, and the parent
directories created as its only side effect; the result does not even
depend on the network environment. -/
theorem C9_nonpositive_retries (cfg : Config) (f₀ : Option (List Nat))
    (env : Env) (hmr : cfg.max_retries ≤ 0) (hmk : env.mkdirFails = false) :
    download_file cfg f₀ env = ⟨f₀, [], .returnedFalse, 0, true⟩ := by
  rw [download_file_run cfg f₀ env hmk]
  dsimp only
  rw [Int.toNat_of_nonpos hmr, runLoop_zero]

/-- Concrete instance of C9: `max_retries = 0` returns `False` leaving
the pre-existing 1-byte file in place. -/
theorem C9_witness :
    download_file ⟨"http://e/k", none, true, fun c => c, true, 0, true⟩
        (some [5]) ⟨false, fun _ => ⟨some 9, some ⟨200, some 3, [[1, 2, 3]]⟩⟩⟩
      = ⟨some [5], [], .returnedFalse, 0, true⟩ :=
  C9_nonpositive_retries ⟨"http://e/k", none, true, fun c => c, true, 0, true⟩
    (some [5]) ⟨false, fun _ => ⟨some 9, some ⟨200, some 3, [[1, 2, 3]]⟩⟩⟩
    (by decide) rfl

/-- C10: an expected hash with an unsupported algorithm name turns every
attempt — even ones whose transfer completes — into a transient
`ValueError`: with `max_retries = N >= 1` and a server delivering a
success-status response on every attempt, the file is re-fetched and
deleted `N` times and the call ends with the retries-exhausted error
naming `N` attempts, not a configuration error. -/
theorem C10_bad_algo_is_transient (cfg : Config) (f₀ : Option (List Nat))
    (env : Env) (N : Nat) (h : String) (hh : cfg.expected_hash = some h)
    (halgo : cfg.algoSupported = false) (hmk : env.mkdirFails = false)
    (hN : cfg.max_retries = (N : Int)) (hN1 : 1 ≤ N)
    (hsrv : ∀ i, i < N →
      ∃ r, (env.attempts i).get = some r ∧ r.status < 400) :
    (download_file cfg f₀ env).outcome =
        .downloadError ("Failed to download " ++ cfg.url ++ " after "
          ++ toString (N : Int) ++ " attempts")
      ∧ (download_file cfg f₀ env).attempts = N
      ∧ (download_file cfg f₀ env).file = none := by
  rw [download_file_run cfg f₀ env hmk]
  dsimp only
  have htoNat : cfg.max_retries.toNat = N := by
    rw [hN]
    omega
  rw [htoNat]
  obtain ⟨k, rfl⟩ : ∃ k, N = k + 1 := ⟨N - 1, by omega⟩
  have h0 : (runAttempt cfg (env.attempts 0) 0 f₀).res = .transient := by
    obtain ⟨r, hget, hst⟩ := hsrv 0 (by omega)
    exact runAttempt_badAlgo cfg (env.attempts 0) 0 f₀ r h hh halgo hget hst
  have hrest : ∀ i, i < k →
      (runAttempt cfg (env.attempts (0 + i + 1)) (0 + i + 1) none).res
        = .transient := by
    intro i hi
    obtain ⟨r, hget, hst⟩ := hsrv (0 + i + 1) (by omega)
    exact runAttempt_badAlgo cfg _ _ none r h hh halgo hget hst
  obtain ⟨evs', heq⟩ := runLoop_exhaust cfg env.attempts k 0 f₀ [] 0 h0 hrest
  rw [heq]
  refine ⟨?_, ?_, rfl⟩
  · dsimp only
    rw [exhaustedMsg, hN]
  · dsimp only
    omega

/-- Concrete instance of C10: expected hash `"ab"` with an unsupported
algorithm, a server always answering 200 with a byte: after 2 attempts
the exhausted error names 2 attempts and no file remains. -/
theorem C10_witness :
    (download_file ⟨"http://e/m", some "ab", false, fun c => c, false, 2, false⟩
        none ⟨false, fun _ => ⟨none, some ⟨200, some 1, [[7]]⟩⟩⟩).outcome =
        .downloadError ("Failed to download "
          ++ (⟨"http://e/m", some "ab", false, fun c => c, false, 2, false⟩ : Config).url
          ++ " after " ++ toString ((2 : Nat) : Int) ++ " attempts")
      ∧ (download_file ⟨"http://e/m", some "ab", false, fun c => c, false, 2, false⟩
          none ⟨false, fun _ => ⟨none, some ⟨200, some 1, [[7]]⟩⟩⟩).attempts = 2
      ∧ (download_file ⟨"http://e/m", some "ab", false, fun c => c, false, 2, false⟩
          none ⟨false, fun _ => ⟨none, some ⟨200, some 1, [[7]]⟩⟩⟩).file = none :=
  C10_bad_algo_is_transient
    ⟨"http://e/m", some "ab", false, fun c => c, false, 2, false⟩
    none ⟨false, fun _ => ⟨none, some ⟨200, some 1, [[7]]⟩⟩⟩ 2 "ab"
    rfl rfl rfl rfl (by omega)
    (fun i _ => ⟨⟨200, some 1, [[7]]⟩, rfl, by decide⟩)
